import Mathlib

/-
  Verification of the PaperTrail board-synchronization core.

  Shallow embedding of:
  - the version-tagged board store route handlers (src/unnamed/part_006,
    `makeVersion`, `router.put /boards/:projectId`);
  - the offline-first sync client (src/unnamed/part_005, `createSaver`,
    `loadCache`/`saveCache`);
  - the client realtime/reconciliation logic (src/unnamed/part_004,
    `applyRemoteSnapshot`, `handleWsPacket`, `sendRealtimeUpdate`);
  - the realtime fanout plugin (src/unnamed/part_003, `registerUpdate`);
  - the standalone server's sanitizers and board deletion
    (src/server.mjs, `sanitizeBoard`, `sanitizeEdge`, `sanitizeNode`,
    `normalizeTags`, `isValidBoardId`, `boardHandler.deleteBoard`).

  JavaScript conventions used throughout the embedding:
  - a field that may be `undefined`/`null` is an `Option`;
  - JS truthiness of a string value: `none` and `some ""` are falsy;
  - `a || b` on strings is `jsOr`, `a ?? b` is `Option.getD`;
  - JS string relational operators are code-unit lexicographic
    (`charListLe` below);
  - opaque JSON payloads that the code only passes through are modelled
    by their serialized text (`String`).
-/

namespace PaperTrail

/-- Truthiness of a JS string value (`undefined`, `null` and `""` are falsy). -/
def truthy : Option String → Bool
  | none => false
  | some s => s ≠ ""

/-- JS `a || b` for string values: `b` unless `a` is truthy. -/
def jsOr (a b : Option String) : Option String :=
  if truthy a then a else b

/-- Lexicographic comparison of char lists, the semantics of JS `<=` on
strings (restricted to code-point order, which agrees with code-unit order
on the strings this program compares). -/
def charListLe : List Char → List Char → Bool
  | [], _ => true
  | _ :: _, [] => false
  | a :: as, b :: bs => if a < b then true else if b < a then false else charListLe as bs

/-- JS `a <= b` on two string values; any comparison against
`undefined`/`null` is false. -/
def jsStrLe (a b : Option String) : Bool :=
  match a, b with
  | some x, some y => charListLe x.data y.data
  | _, _ => false

/-- JS `String.prototype.trim`: strip leading and trailing whitespace. -/
def jsTrim (s : String) : String :=
  ⟨((s.data.dropWhile Char.isWhitespace).reverse.dropWhile
      Char.isWhitespace).reverse⟩

/-! ## Version-tagged board store (src/unnamed/part_006)

The Prisma store is modelled as the slice belonging to one `projectId`:
`prisma.papertrailBoard.findUnique({ where: { projectId } })` is the
`board` field, and the `papertrailNode`/`papertrailEdge` tables are the
rows whose `boardId` points at that board. -/

/-- Row of the `papertrailBoard` table (the fields the handlers read).
`updatedAt` is the Prisma `@updatedAt` timestamp in epoch milliseconds. -/
structure BoardRow where
  id : Nat
  projectId : String
  title : Option String
  version : Nat
  updatedAt : Nat
deriving DecidableEq

/-- Row of the `papertrailNode` table. `data`/`position` are JSON payloads
the handler passes through (`n.data ?? {}`), modelled as serialized text. -/
structure NodeRow where
  id : String
  boardId : Nat
  type : Option String
  data : String
  position : String
deriving DecidableEq

/-- Row of the `papertrailEdge` table (`e.data ?? null` keeps `null`). -/
structure EdgeRow where
  id : String
  boardId : Nat
  source : Option String
  target : Option String
  data : Option String
deriving DecidableEq

/-- The store slice for one `projectId`. -/
structure Store where
  board : Option BoardRow
  nodes : List NodeRow
  edges : List EdgeRow
deriving DecidableEq

/-- Source: `const makeVersion = (board) =>
  `${board.updatedAt?.toISOString?.() || ""}:${board.version ?? 0}``.
`iso` is the `Date.prototype.toISOString` rendering of the timestamp,
kept as a parameter; no theorem depends on its shape. -/
def makeVersion (iso : Nat → String) (b : BoardRow) : String :=
  iso b.updatedAt ++ ":" ++ Nat.repr b.version

/-- A node object of the PUT request body. -/
structure PutNode where
  id : String
  type : Option String
  data : Option String
  position : Option String
deriving DecidableEq

/-- An edge object of the PUT request body. -/
structure PutEdge where
  id : String
  source : Option String
  target : Option String
  data : Option String
deriving DecidableEq

/-- Body of `PUT /boards/:projectId`:
`const { board: boardPayload = {}, nodes = [], edges = [], version } = req.body || {}`.
`boardTitle` is `boardPayload.title` (`none` when absent). `version` is the
expected version tag (`none` models absent/`null`). -/
structure PutBody where
  boardTitle : Option String
  nodes : List PutNode
  edges : List PutEdge
  version : Option String
deriving DecidableEq

/-- Response of the PUT handler. `ok` carries the re-fetched board row, the
replaced node/edge rows and `makeVersion(updated)`. -/
inductive PutResult where
  | notFound
  | conflict (currentVersion : String)
  | ok (board : BoardRow) (nodes : List NodeRow) (edges : List EdgeRow) (version : String)
deriving DecidableEq

/-- Source: `router.put("/boards/:projectId", ...)` (src/unnamed/part_006
lines 105-173). Steps: look up the board; 404 when absent; 409 with
`currentVersion` when the body carries a truthy `version` different from
`makeVersion(existing)`; otherwise one transaction deletes all node/edge
rows of the board, inserts the submitted ones, bumps the integer version
counter by one (Prisma `version: { increment: 1 }`) and refreshes
`updatedAt` (`@updatedAt`), then the updated snapshot is returned. -/
def putBoard (iso : Nat → String) (now : Nat) (body : PutBody) (s : Store) :
    PutResult × Store :=
  match s.board with
  | none => (.notFound, s)
  | some existing =>
    let currentVersion := makeVersion iso existing
    if truthy body.version ∧ body.version ≠ some currentVersion then
      (.conflict currentVersion, s)
    else
      let newNodes := body.nodes.map fun n =>
        { id := n.id, boardId := existing.id, type := n.type
          data := n.data.getD "{}", position := n.position.getD "{}" : NodeRow }
      let newEdges := body.edges.map fun e =>
        { id := e.id, boardId := existing.id, source := e.source
          target := e.target, data := e.data : EdgeRow }
      let updated : BoardRow :=
        { existing with
          title := match body.boardTitle with
                   | some t => some t
                   | none => existing.title
          version := existing.version + 1
          updatedAt := now }
      let s' : Store :=
        { board := some updated
          nodes := s.nodes.filter (fun r => r.boardId ≠ existing.id) ++ newNodes
          edges := s.edges.filter (fun r => r.boardId ≠ existing.id) ++ newEdges }
      (.ok updated newNodes newEdges (makeVersion iso updated), s')

/-- A sequence of PUT calls, each with its own body and server-side
timestamp; returns the responses in order and the final store. -/
def putSeq (iso : Nat → String) (s : Store) :
    List (PutBody × Nat) → List PutResult × Store
  | [] => ([], s)
  | (body, now) :: rest =>
    let r := putBoard iso now body s
    let rs := putSeq iso r.2 rest
    (r.1 :: rs.1, rs.2)

/-- The integer version counter of a successful response. -/
def resCounter : PutResult → Option Nat
  | .ok b _ _ _ => some b.version
  | _ => none

/-- The version tag string of a successful response. -/
def resTag : PutResult → Option String
  | .ok _ _ _ v => some v
  | _ => none

/-- Whether a response is a successful replace. -/
def resIsOk : PutResult → Bool
  | .ok _ _ _ _ => true
  | _ => false

/-! Proof-auxiliary definitions for reasoning about `Nat.repr` (used to show
two version tags with different counters are different strings). -/

/-- Concrete timestamp rendering used by the witnesses (any function works
for the theorems, which take `iso` as a parameter). -/
def isoT (t : Nat) : String := "2025-01-01T00:00:0" ++ Nat.repr t ++ ".000Z"

/-- Witness board row for the store theorems. -/
def witBoard : BoardRow :=
  { id := 1, projectId := "p1", title := none, version := 0, updatedAt := 0 }

/-- Witness store slice holding `witBoard` and no node/edge rows. -/
def witStore : Store := { board := some witBoard, nodes := [], edges := [] }

/-- Witness PUT body carrying one node, one edge and a stale version tag. -/
def witBodyStale : PutBody :=
  { boardTitle := some "t"
    nodes := [{ id := "n1", type := some "text", data := none, position := none }]
    edges := []
    version := some "2025-01-01T00:00:09.000Z:9" }

/-- PUT body carrying the *empty-string* version tag: non-null, different
from every tag the store can hold, yet falsy in JS. -/
def witBodyEmptyTag : PutBody :=
  { boardTitle := none
    nodes := [{ id := "n2", type := some "text", data := none, position := none }]
    edges := []
    version := some "" }

/-- PUT body carrying no version tag (unconditional write). -/
def witBodyNoTag : PutBody :=
  { boardTitle := none, nodes := [], edges := [], version := none }

/-! ## Sync client (src/unnamed/part_005, `createSaver`)

The saver's closure variables (`timer`, `lastVersion`, `pending`, `busy`,
`retryTimer`) become a state record; `schedule` and `flush` become steps on
it. One `flush` call — from `if (!pending || busy)` through the awaited
`saveBoard` and its handlers — is one atomic step whose external inputs
(HTTP outcome, what the `onConflict` callback did) are parameters, and
whose externally visible effects are returned as an ordered action list. -/

/-- A client-side board snapshot `{ board: { id }, nodes, edges, version? }`
as scheduled, transmitted and cached. Node and edge contents are opaque to
the sync layer (type parameters); `nodes`/`edges` are `Option` because
fetched snapshots are read back as `snapshot.nodes || []`. -/
structure Snap (α β : Type) where
  boardId : Option String
  nodes : Option (List α)
  edges : Option (List β)
  version : Option String
deriving DecidableEq

/-- Configuration captured by
`createSaver({ projectId, endpoint, debounceMs, onConflict })`.
The call site (src/unnamed/part_004 lines 1445-1460) additionally passes an
`onSuccess` callback; it is recorded here, but the parameter destructuring
of `createSaver` omits it, so no code in the saver can reach it.
`onConflict`/`onSuccess` record whether a callback function was passed. -/
structure SaverConfig where
  projectId : String
  debounceMs : Nat
  onConflict : Bool
  onSuccess : Bool
deriving DecidableEq

/-- Mutable closure state of `createSaver`. -/
structure SaverState (α β : Type) where
  timer : Bool
  lastVersion : Option String
  pending : Option (Snap α β)
  busy : Bool
  retryTimer : Bool
deriving DecidableEq

/-- Externally observable effects of one saver step, in program order. -/
inductive SaverAction (α β : Type) where
  /-- the `saveBoard(projectId, payload, endpoint)` HTTP attempt -/
  | write (payload : Snap α β)
  /-- `await onConflict(err, payload, { setVersion, saveCache, lastVersion })` -/
  | invokeOnConflict
  /-- never emitted: `createSaver` ignores the `onSuccess` callback -/
  | invokeOnSuccess
  /-- `saveCache(projectId, { ...res, cachedAt })` -/
  | saveCache (entry : Snap α β) (cachedAt : String)
  /-- `retryTimer = setTimeout(..., 5000)` -/
  | scheduleRetry
deriving DecidableEq

/-- Outcome of the awaited `saveBoard` call: a 200 body (which carries the
server's new snapshot and version tag), or a thrown error with an HTTP
status (409 = version conflict; other statuses and network failures share
the same catch path). -/
inductive SaveResp (α β : Type) where
  | ok (res : Snap α β)
  | err (status : Nat)
deriving DecidableEq

/-- Source: `schedule(snapshot)` — overwrite `pending` with the snapshot
(its `version` defaulted from `lastVersion`), clear and re-arm the debounce
timer. Emits no network traffic. -/
def scheduleStep (st : SaverState α β) (snapshot : Snap α β) : SaverState α β :=
  { st with
    pending := some { snapshot with version := jsOr st.lastVersion snapshot.version }
    timer := true }

/-- Source: `setVersion(v)` — `lastVersion = v`. -/
def setVersionStep (st : SaverState α β) (v : Option String) : SaverState α β :=
  { st with lastVersion := v }

/-- Source: the `flush` closure of `createSaver` (src/unnamed/part_005
lines 82-115), as one atomic step. `resp` is the HTTP outcome for the
attempted payload; `reconcileSetVersion` is `some v` when the awaited
`onConflict` callback called `setVersion v` while it ran (reconciliation),
`none` when it did not; `cachedAt` is the wall-clock string. In the
success branch the trailing `if (pending) flush()` re-fire is vacuous
within one atomic step because `pending` was cleared and no concurrent
`schedule` is modelled inside the step. -/
def flushStep (cfg : SaverConfig) (st : SaverState α β) (resp : SaveResp α β)
    (reconcileSetVersion : Option (Option String)) (cachedAt : String) :
    SaverState α β × List (SaverAction α β) :=
  match st.pending with
  | none => (st, [])
  | some snapshot =>
    if st.busy then (st, [])
    else
      let payload : Snap α β :=
        { snapshot with version := jsOr st.lastVersion snapshot.version }
      match resp with
      | .ok res =>
        ({ st with lastVersion := res.version, pending := none, busy := false },
         [.write payload, .saveCache res cachedAt])
      | .err status =>
        let retryActions : List (SaverAction α β) :=
          if st.retryTimer then [] else [.scheduleRetry]
        if status = 409 ∧ cfg.onConflict then
          ({ st with
             lastVersion := match reconcileSetVersion with
                            | some v => v
                            | none => st.lastVersion
             pending := some payload
             retryTimer := true
             busy := false },
           [.write payload, .invokeOnConflict] ++ retryActions)
        else
          ({ st with pending := some payload, retryTimer := true, busy := false },
           [.write payload] ++ retryActions)

/-- The network writes contained in an action trace, in order. -/
def writesOf : List (SaverAction α β) → List (Snap α β)
  | [] => []
  | .write p :: rest => p :: writesOf rest
  | _ :: rest => writesOf rest

/-! ## Client realtime and reconciliation (src/unnamed/part_004) -/

/-- Local cache entry `{ ...snapshot, cachedAt }` as written by `saveCache`. -/
structure CacheEntry (α β : Type) where
  snap : Snap α β
  cachedAt : String
deriving DecidableEq

/-- The view-layer state the reconciliation and realtime handlers touch:
React `nodes`/`edges` state, `boardVersionRef.current`, the saver's
`lastVersion` (reachable through `setVersion`), the board's local cache
entry, and the conflict banner. -/
structure ClientState (α β : Type) where
  nodes : List α
  edges : List β
  boardVersion : Option String
  saverLastVersion : Option String
  cache : Option (CacheEntry α β)
  conflictNotice : Option String
deriving DecidableEq

/-- Source: `applyRemoteSnapshot` (src/unnamed/part_004 lines 1271-1288).
`now` is the `cachedAt` timestamp string. -/
def applyRemoteSnapshot (st : ClientState α β) (snapshot : Option (Snap α β))
    (now : String) : ClientState α β :=
  match snapshot with
  | none => st
  | some s =>
    let nextNodes := s.nodes.getD []
    let nextEdges := s.edges.getD []
    if truthy st.boardVersion ∧ jsStrLe s.version st.boardVersion then st
    else
      { st with
        nodes := nextNodes
        edges := nextEdges
        saverLastVersion := s.version
        boardVersion := s.version
        cache := some ⟨s, now⟩ }

/-- Payload of a realtime packet:
`{ projectId, version, sourceId, snapshot }`. -/
structure PacketPayload (α β : Type) where
  projectId : Option String
  version : Option String
  sourceId : Option String
  snapshot : Option (Snap α β)
deriving DecidableEq

/-- A parsed websocket message `{ type, payload }`. -/
structure Packet (α β : Type) where
  type : String
  payload : Option (PacketPayload α β)
deriving DecidableEq

/-- Source: `handleWsPacket` (src/unnamed/part_004 lines 1290-1313).
`packet` is the `safeJsonParse` result (`none` for unparseable data).
When a packet qualifies but carries no inline snapshot, the handler
fetches the board; `fetchResult` is that call's outcome and is unused on
every other path. -/
def handleWsPacket (projectId clientId : String) (st : ClientState α β)
    (packet : Option (Packet α β)) (fetchResult : Except Unit (Snap α β))
    (now : String) : ClientState α β :=
  match packet with
  | none => st
  | some p =>
    if p.type ≠ "pt:update" then st
    else
      let pid := p.payload.bind PacketPayload.projectId
      let version := p.payload.bind PacketPayload.version
      let sourceId := p.payload.bind PacketPayload.sourceId
      let snapshot := p.payload.bind PacketPayload.snapshot
      if pid ≠ some projectId then st
      else if ¬ truthy version then st
      else if sourceId = some clientId then st
      else if truthy st.boardVersion ∧ st.boardVersion = version then st
      else
        match snapshot with
        | none =>
          match fetchResult with
          | .error _ => st
          | .ok remote =>
            { applyRemoteSnapshot st (some remote) now with
              conflictNotice := some "Remote changes applied." }
        | some snap =>
          { applyRemoteSnapshot st (some snap) now with
            conflictNotice := some "Remote changes applied." }

/-! ## Realtime fanout plugin (src/unnamed/part_003) -/

/-- Source: `const channelForProject = (projectId) => ...` — the channel
name `papertrail:` followed by the project id. -/
def channelForProject (projectId : String) : String := "papertrail:" ++ projectId

/-- Modelled from the spec: the platform websocket hub — imported from
`platform/src/ws/registry.js`, which lies outside this repository — keeps
per-channel subscriptions; `broadcastChannel(channel, message, { exclude })`
delivers the message to every subscriber of the channel except the excluded
connection. Subscriptions are (client id, channel) pairs. -/
structure Hub where
  subs : List (String × String)
deriving DecidableEq

/-- Modelled from the spec: `hub.broadcastChannel(channel, message,
{ exclude: client })`; the result lists the deliveries as
(recipient client id, message). -/
def broadcastChannel (hub : Hub) (channel : String) (message : Packet α β)
    (excludeClient : String) : List (String × Packet α β) :=
  (hub.subs.filter fun sub => sub.2 == channel && sub.1 != excludeClient).map
    fun sub => (sub.1, message)

/-- Source: `registerUpdate` (src/unnamed/part_003 lines 11-16): ignore
payloads without a truthy `projectId`, otherwise broadcast
`{ type: "pt:update", payload }` on the project's channel, excluding the
sending connection. -/
def registerUpdate (hub : Hub) (client : String)
    (payload : Option (PacketPayload α β)) : List (String × Packet α β) :=
  match payload.bind PacketPayload.projectId with
  | none => []
  | some pid =>
    if pid = "" then []
    else broadcastChannel hub (channelForProject pid) ⟨"pt:update", payload⟩ client

/-! Concrete client-side values used by the witnesses (node/edge contents
instantiated at `Nat`). -/

/-- Witness snapshot carrying a version tag. -/
def witSnap : Snap Nat Nat :=
  { boardId := some "p1", nodes := some [1, 2], edges := some [7]
    version := some "2025-01-01T00:00:03.000Z:1" }

/-- Witness snapshot without a version tag (as scheduled by the editor). -/
def witSnap2 : Snap Nat Nat :=
  { boardId := some "p1", nodes := some [3], edges := some [], version := none }

/-- Witness snapshot as produced by a `schedule` call. -/
def witSchedSnap : Snap Nat Nat :=
  { boardId := some "p1", nodes := some [1], edges := some [], version := none }

/-- Witness client state with no known version. -/
def witClient : ClientState Nat Nat :=
  { nodes := [], edges := [], boardVersion := none, saverLastVersion := none
    cache := none, conflictNotice := none }

/-- Witness client state already holding the tag of `witPayloadKnown`. -/
def witClientKnown : ClientState Nat Nat :=
  { nodes := [9], edges := [], boardVersion := some "2025-01-01T00:00:03.000Z:1"
    saverLastVersion := some "2025-01-01T00:00:03.000Z:1", cache := none
    conflictNotice := none }

/-- Witness saver configuration as built at the call site (`onConflict` and
`onSuccess` both passed). -/
def witCfg : SaverConfig :=
  { projectId := "p1", debounceMs := 1200, onConflict := true, onSuccess := true }

/-- Witness saver state with a buffered snapshot awaiting flush. -/
def witSaverPending : SaverState Nat Nat :=
  { timer := true, lastVersion := some "2025-01-01T00:00:00.000Z:0"
    pending := some witSchedSnap, busy := false, retryTimer := false }

/-- Witness hub with two subscribers of board `p1` and one of another board. -/
def witHub : Hub :=
  { subs := [("c1", "papertrail:p1"), ("c2", "papertrail:p1"), ("c3", "papertrail:q")] }

/-- Witness update payload originating from client `c1`. -/
def witPayload : PacketPayload Nat Nat :=
  { projectId := some "p1", version := some "2025-01-01T00:00:03.000Z:1"
    sourceId := some "c1", snapshot := some witSnap }

/-- The pt:update packet the fanout relays for `witPayload`. -/
def witPacket : Packet Nat Nat := { type := "pt:update", payload := some witPayload }

/-- Witness update payload from a third client with the already-known tag. -/
def witPayloadKnown : PacketPayload Nat Nat :=
  { projectId := some "p1", version := some "2025-01-01T00:00:03.000Z:1"
    sourceId := some "c9", snapshot := some witSnap }

/-- The pt:update packet for `witPayloadKnown`. -/
def witPacketKnown : Packet Nat Nat :=
  { type := "pt:update", payload := some witPayloadKnown }

/-! ## Standalone server sanitizers (src/server.mjs lines 1410-1533)

`stripDangerousHtml` and `sanitizeUrl` (regex/URL-parser based, and
explicitly out of the spec's scope) are kept as function parameters
`stripHtml`/`sanUrl`; no theorem depends on their behaviour. -/

/-- A submitted edge as `sanitizeEdge` reads it: a field that is absent or
of the wrong JS type is `none` (`String(edge.sourceId || "")` turns those
into `""`); `dashed` is the truthiness of `edge.dashed`. -/
structure InEdge where
  id : Option String
  sourceId : Option String
  targetId : Option String
  label : Option String
  dashed : Bool
  color : Option String
deriving DecidableEq

/-- A sanitized edge (`color`/`label` set only when accepted). -/
structure OutEdge where
  id : String
  sourceId : String
  targetId : String
  label : Option String
  dashed : Bool
  color : Option String
deriving DecidableEq

/-- A hexadecimal digit, as in the color regex character class. -/
def isHexChar (c : Char) : Bool :=
  c.isDigit || ('a' ≤ c && c ≤ 'f') || ('A' ≤ c && c ≤ 'F')

/-- Source regex `/^#([0-9a-fA-F]{3}|[0-9a-fA-F]{6})$/`. -/
def isHexColor (s : String) : Bool :=
  match s.data with
  | '#' :: rest => (rest.length == 3 || rest.length == 6) && rest.all isHexChar
  | _ => false

/-- The accepted color names of the case-insensitive named-color regex. -/
def namedColors : List String :=
  ["red", "blue", "green", "black", "white", "gray", "grey", "orange",
   "purple", "yellow", "pink", "teal", "cyan", "magenta", "brown"]

/-- Case-insensitive full match of the named-color alternation. -/
def isNamedColor (s : String) : Bool := namedColors.contains s.toLower

/-- Source: `sanitizeEdge(edge, i)` (src/server.mjs lines 1436-1453):
stringify the endpoints, drop the edge (`null`) when an endpoint is empty
or the edge is a self-loop, otherwise keep id (defaulted), clamped label,
`dashed`, and the color if it passes the hex or named pattern. -/
def sanitizeEdge (edge : InEdge) (i : Nat) : Option OutEdge :=
  let sid := edge.sourceId.getD ""
  let tid := edge.targetId.getD ""
  if sid = "" ∨ tid = "" ∨ sid = tid then none
  else some
    { id := edge.id.getD ("e-" ++ Nat.repr i)
      sourceId := sid
      targetId := tid
      label := edge.label.map (fun l => l.take 256)
      dashed := edge.dashed
      color := match edge.color with
               | some c => if isHexColor c || isNamedColor c then some c else none
               | none => none }

/-- The type-specific payload of a submitted node, fields as `sanitizeNode`
reads them (`none` = absent or not a string; `tags` is `none` when not an
array, and a `none` entry is a non-string element). -/
structure InNodeData where
  title : Option String
  text : Option String
  html : Option String
  descHtml : Option String
  linkUrl : Option String
  imageUrl : Option String
  tags : Option (List (Option String))
deriving DecidableEq

/-- A submitted node (`x`..`h` are `none` when not finite numbers; `data`
is `none` when not a non-null object). -/
structure InNode where
  id : Option String
  type : Option String
  x : Option Int
  y : Option Int
  w : Option Int
  h : Option Int
  data : Option InNodeData
deriving DecidableEq

/-- A sanitized node payload. -/
structure OutNodeData where
  title : Option String
  text : Option String
  html : Option String
  descHtml : Option String
  linkUrl : Option String
  imageUrl : Option String
  tags : List String
deriving DecidableEq

/-- A sanitized node. -/
structure OutNode where
  id : String
  type : String
  x : Int
  y : Int
  w : Option Int
  h : Option Int
  data : OutNodeData
deriving DecidableEq

/-- Loop body of `normalizeTags`: trim, strip leading `#`s, lowercase;
keep non-empty, deduplicated tags up to 64. -/
def normalizeTagsGo : List (Option String) → List String → List String
  | [], out => out
  | none :: rest, out => normalizeTagsGo rest out
  | some t :: rest, out =>
    let t2 := ((t.trim).dropWhile (fun c => c = '#')).toLower
    if t2 ≠ "" ∧ out.length < 64 ∧ ¬ out.contains t2 then
      normalizeTagsGo rest (out ++ [t2])
    else normalizeTagsGo rest out

/-- Source: `normalizeTags(arr)` (src/server.mjs lines 1495-1504). -/
def normalizeTags (arr : Option (List (Option String))) : List String :=
  match arr with
  | none => []
  | some l => normalizeTagsGo l []

/-- Source: `sanitizeNode(node, i)` (src/server.mjs lines 1454-1477). -/
def sanitizeNode (stripHtml sanUrl : String → String) (node : InNode) (i : Nat) :
    OutNode :=
  let d0 := node.data.getD ⟨none, none, none, none, none, none, none⟩
  { id := node.id.getD ("n-" ++ Nat.repr i)
    type := match node.type with
            | some t => if t ∈ ["text", "image", "link", "imageText"] then t else "text"
            | none => "text"
    x := node.x.getD (100 + i * 20)
    y := node.y.getD (100 + i * 20)
    w := node.w
    h := node.h
    data :=
      { title := d0.title.map (fun s => s.take 512)
        text := d0.text.map (fun s => s.take 8000)
        html := d0.html.map (fun s => stripHtml (s.take 8000))
        descHtml := d0.descHtml.map (fun s => stripHtml (s.take 8000))
        linkUrl := d0.linkUrl.map sanUrl
        imageUrl := d0.imageUrl.map sanUrl
        tags := normalizeTags d0.tags } }

/-- An allowed board-id character, the class `[A-Za-z0-9_-]`. -/
def isValidIdChar (c : Char) : Bool :=
  c.isAlpha || c.isDigit || c = '_' || c = '-'

/-- Source: `isValidBoardId(v)` — `typeof v === "string" &&
/^[A-Za-z0-9_-]{3,32}$/.test(v)`. -/
def isValidBoardId : Option String → Bool
  | none => false
  | some v => 3 ≤ v.length && v.length ≤ 32 && v.data.all isValidIdChar

/-- Source: `ensureBoardId(candidate, fallbackCurrent)`; `freshId` stands
for the generated `uuid("b-")` (time- and randomness-based, outside the
model). -/
def ensureBoardId (candidate fallbackCurrent : Option String)
    (freshId : String) : String :=
  if isValidBoardId candidate then candidate.getD ""
  else if isValidBoardId fallbackCurrent then fallbackCurrent.getD ""
  else freshId

/-- A submitted board payload as `sanitizeBoard` reads it. -/
structure InBoard where
  id : Option String
  title : Option String
  visibility : Option String
  createdAt : Option String
  nodes : Option (List InNode)
  edges : Option (List InEdge)
deriving DecidableEq

/-- A sanitized board. -/
structure OutBoard where
  id : String
  title : String
  visibility : String
  createdAt : String
  updatedAt : String
  nodes : List OutNode
  edges : List OutEdge
  schemaVersion : Nat
deriving DecidableEq

/-- The edge loop of `sanitizeBoard`: sanitize each indexed edge, keep it
only when both endpoints are found among the sanitized nodes. -/
def keepEdges (nodes : List OutNode) : List (Nat × InEdge) → List OutEdge
  | [] => []
  | (i, edge) :: rest =>
    match sanitizeEdge edge i with
    | none => keepEdges nodes rest
    | some e =>
      if (nodes.find? (fun n => n.id == e.sourceId)).isSome then
        if (nodes.find? (fun n => n.id == e.targetId)).isSome then
          e :: keepEdges nodes rest
        else keepEdges nodes rest
      else keepEdges nodes rest

/-- Source: `sanitizeBoard(incoming, fallbackId)` (src/server.mjs lines
1410-1435). `nowIso` is `new Date().toISOString()`; `schemaVer` is the
`schemaVersion` constant read from package.json (not under src/). -/
def sanitizeBoard (stripHtml sanUrl : String → String) (nowIso freshId : String)
    (schemaVer : Nat) (incoming : InBoard) (fallbackId : Option String) :
    OutBoard :=
  let nodesIn := (incoming.nodes.getD []).take 5000
  let outNodes := nodesIn.mapIdx (fun i n => sanitizeNode stripHtml sanUrl n i)
  let edgesIn := (incoming.edges.getD []).take 20000
  { id := ensureBoardId incoming.id fallbackId freshId
    title := match incoming.title with
             | some t => t.take 256
             | none => "Untitled"
    visibility := match incoming.visibility with
                  | some v => if v.toLower = "private" then "private" else "public"
                  | none => "public"
    createdAt := match incoming.createdAt with
                 | some t => if t = "" then nowIso else t
                 | none => nowIso
    updatedAt := nowIso
    nodes := outNodes
    edges := keepEdges outNodes edgesIn.enum
    schemaVersion := schemaVer }

/-! ## Standalone server board deletion (src/server.mjs lines 772-813) -/

/-- Row of the boards table the delete handler touches. -/
structure SBoardRow where
  id : String
  userId : Option String
deriving DecidableEq

/-- Node row keyed by its owning board (cascade target). -/
structure SNodeRow where
  id : String
  boardId : String
deriving DecidableEq

/-- Edge row keyed by its owning board (cascade target). -/
structure SEdgeRow where
  id : String
  boardId : String
deriving DecidableEq

/-- Server store for the delete handler: boards, their node/edge rows, and
the per-board uploads directories on disk (named by board id). -/
structure ServerStore where
  boards : List SBoardRow
  nodes : List SNodeRow
  edges : List SEdgeRow
  uploadDirs : List String
deriving DecidableEq

/-- The JS value of the `confirm` body field (the handler accepts `true`
and `"true"`). -/
inductive ConfirmVal where
  | boolVal (b : Bool)
  | strVal (s : String)
  | absent
deriving DecidableEq

/-- A delete request: the raw path parameter, the session-resolved user,
and the confirmation body fields. -/
structure DeleteRequest where
  rawId : String
  user : Option String
  confirm : ConfirmVal
  confirmId : Option String
deriving DecidableEq

/-- Responses of the delete handler (`badRequest` = 400, `unauthorized` =
401, `notFound` = 404, `forbidden` = 403, `okDeleted` = 200 `{ok:true}`). -/
inductive DeleteResult where
  | badRequest (msg : String)
  | unauthorized
  | notFound
  | forbidden
  | okDeleted
deriving DecidableEq

/-- Source: `confirm === true || confirm === "true" || confirmId === id`. -/
def confirmOk (req : DeleteRequest) (id : String) : Bool :=
  req.confirm == ConfirmVal.boolVal true
    || req.confirm == ConfirmVal.strVal "true"
    || req.confirmId == some id

/-- Source: `boardHandler.deleteBoard` (src/server.mjs lines 772-813):
validate the trimmed id, require a session user, 404 when the board row is
absent, 403 unless the requester owns it, 400 without confirmation; then
one transaction deletes the board row — node and edge rows go with it via
the schema's `ON DELETE CASCADE` (prisma migration
20250919092526, `nodes_board_id_fkey`/`edges_board_id_fkey`) — and the
board's uploads directory is removed. -/
def deleteBoard (req : DeleteRequest) (s : ServerStore) :
    DeleteResult × ServerStore :=
  let id := (jsTrim req.rawId)
  if ¬ isValidBoardId (some id) then (.badRequest "Invalid board id", s)
  else
    match req.user with
    | none => (.unauthorized, s)
    | some uid =>
      match s.boards.find? (fun b => b.id == id) with
      | none => (.notFound, s)
      | some meta =>
        if meta.userId ≠ some uid then (.forbidden, s)
        else if ¬ confirmOk req id then (.badRequest "Confirmation required", s)
        else
          (.okDeleted,
           { boards := s.boards.filter (fun b => b.id ≠ id)
             nodes := s.nodes.filter (fun r => r.boardId ≠ id)
             edges := s.edges.filter (fun r => r.boardId ≠ id)
             uploadDirs := s.uploadDirs.filter (fun d => d ≠ id) })

/-! Concrete server-side values used by the witnesses. -/

/-- Witness store with two boards, their rows and uploads directories. -/
def delStore : ServerStore :=
  { boards := [{ id := "abc123", userId := some "u1" },
               { id := "other1", userId := none }]
    nodes := [{ id := "n1", boardId := "abc123" }, { id := "n2", boardId := "other1" }]
    edges := [{ id := "e1", boardId := "abc123" }]
    uploadDirs := ["abc123", "other1"] }

/-- An empty server store. -/
def emptyServerStore : ServerStore :=
  { boards := [], nodes := [], edges := [], uploadDirs := [] }

/-- Confirmed, authenticated delete request for board `abc123`. -/
def delReq : DeleteRequest :=
  { rawId := "abc123", user := some "u1", confirm := .boolVal true, confirmId := none }

/-- Confirmed, authenticated delete request for an absent board id. -/
def delReqMissing : DeleteRequest :=
  { rawId := "zzz999", user := some "u1", confirm := .boolVal true, confirmId := none }

/-- Witness submitted board: two good nodes; one good edge, one self-loop,
one dangling edge, one edge with a missing endpoint. -/
def witInBoard : InBoard :=
  { id := some "board1"
    title := some "Board"
    visibility := none
    createdAt := none
    nodes := some
      [{ id := some "a", type := some "text", x := some 0, y := some 0
         w := none, h := none, data := none },
       { id := some "b", type := some "image", x := some 1, y := some 2
         w := none, h := none, data := none }]
    edges := some
      [{ id := some "e1", sourceId := some "a", targetId := some "b"
         label := none, dashed := false, color := none },
       { id := some "e2", sourceId := some "a", targetId := some "a"
         label := none, dashed := false, color := none },
       { id := some "e3", sourceId := some "a", targetId := some "zz"
         label := none, dashed := false, color := none },
       { id := some "e4", sourceId := none, targetId := some "b"
         label := none, dashed := false, color := none }] }

/-- The stale payload the witness saver flushes: `witSchedSnap` with the
saver's (stale) `lastVersion` filled in. -/
def witStalePayload : Snap Nat Nat :=
  { boardId := some "p1", nodes := some [1], edges := some []
    version := some "2025-01-01T00:00:00.000Z:0" }

/-- The sanitized form of the one valid edge of `witInBoard`. -/
def witOutEdge : OutEdge :=
  { id := "e1", sourceId := "a", targetId := "b", label := none
    dashed := false, color := none }

/-- A submitted self-loop edge (witness for the drop rule). -/
def witSelfLoopEdge : InEdge :=
  { id := some "e2", sourceId := some "a", targetId := some "a"
    label := none, dashed := false, color := none }

/-- Numeric value of a decimal digit character (proof device). -/
def digitVal (c : Char) : Nat := c.toNat - '0'.toNat

/-- Decimal decoding of a character list (proof device). -/
def decodeDigits (l : List Char) : Nat :=
  l.foldl (fun a c => 10 * a + digitVal c) 0

end PaperTrail

namespace PaperTrail

/-! ## Helper lemmas about `Nat.repr` and version tags -/

theorem digitChar_big (n : Nat) (h : 16 ≤ n) : Nat.digitChar n = '*' := by
  unfold Nat.digitChar
  repeat rw [if_neg (by omega)]

theorem digitChar_ne_colon (n : Nat) : Nat.digitChar n ≠ ':' := by
  rcases Nat.lt_or_ge n 16 with h | h
  · interval_cases n <;> decide
  · rw [digitChar_big n h]; decide

theorem asString_data (l : List Char) : (List.asString l).data = l := rfl

theorem toDigitsCore_ne_colon (b fuel : Nat) :
    ∀ (n : Nat) (ds : List Char), ':' ∉ ds → ':' ∉ Nat.toDigitsCore b fuel n ds := by
  induction fuel with
  | zero => intro n ds h; simpa [Nat.toDigitsCore] using h
  | succ f ih =>
    intro n ds h
    simp only [Nat.toDigitsCore]
    split
    · intro hmem
      rcases List.mem_cons.mp hmem with h1 | h2
      · exact digitChar_ne_colon _ h1.symm
      · exact h h2
    · apply ih
      intro hmem
      rcases List.mem_cons.mp hmem with h1 | h2
      · exact digitChar_ne_colon _ h1.symm
      · exact h h2

theorem repr_ne_colon (n : Nat) : ':' ∉ (Nat.repr n).data := by
  show ':' ∉ (List.asString (Nat.toDigits 10 n)).data
  rw [asString_data]
  exact toDigitsCore_ne_colon 10 (n + 1) n [] (by simp)

theorem digitVal_digitChar {m : Nat} (h : m < 10) :
    digitVal (Nat.digitChar m) = m := by
  interval_cases m <;> decide

theorem toDigitsCore_decode (fuel : Nat) :
    ∀ (n : Nat) (ds : List Char), n < fuel →
      ∃ pre, Nat.toDigitsCore 10 fuel n ds = pre ++ ds ∧ decodeDigits pre = n := by
  induction fuel with
  | zero => intro n ds h; omega
  | succ f ih =>
    intro n ds h
    simp only [Nat.toDigitsCore]
    split
    · rename_i hdiv
      refine ⟨[Nat.digitChar (n % 10)], rfl, ?_⟩
      have hm : n % 10 < 10 := Nat.mod_lt _ (by omega)
      have hone : decodeDigits [Nat.digitChar (n % 10)]
          = digitVal (Nat.digitChar (n % 10)) := by
        simp [decodeDigits]
      rw [hone, digitVal_digitChar hm]
      omega
    · rename_i hdiv
      have hlt : n / 10 < f := by
        have h1 : n / 10 < n := Nat.div_lt_self (by omega) (by omega)
        omega
      obtain ⟨pre, hpre, hdec⟩ := ih (n / 10) (Nat.digitChar (n % 10) :: ds) hlt
      refine ⟨pre ++ [Nat.digitChar (n % 10)], by simpa using hpre, ?_⟩
      have hm : n % 10 < 10 := Nat.mod_lt _ (by omega)
      have : decodeDigits (pre ++ [Nat.digitChar (n % 10)])
          = 10 * decodeDigits pre + digitVal (Nat.digitChar (n % 10)) := by
        simp [decodeDigits, List.foldl_append]
      rw [this, hdec, digitVal_digitChar hm]
      omega

theorem repr_data_injective {m n : Nat}
    (h : (Nat.repr m).data = (Nat.repr n).data) : m = n := by
  have hm := toDigitsCore_decode (m + 1) m [] (by omega)
  have hn := toDigitsCore_decode (n + 1) n [] (by omega)
  obtain ⟨pm, hpm, hdm⟩ := hm
  obtain ⟨pn, hpn, hdn⟩ := hn
  have hrm : (Nat.repr m).data = pm := by
    show (List.asString (Nat.toDigits 10 m)).data = pm
    rw [asString_data]
    simpa [Nat.toDigits] using hpm
  have hrn : (Nat.repr n).data = pn := by
    show (List.asString (Nat.toDigits 10 n)).data = pn
    rw [asString_data]
    simpa [Nat.toDigits] using hpn
  rw [hrm, hrn] at h
  rw [← hdm, ← hdn, h]

/-- First-occurrence splitting: in `l ++ x :: r` with `x` absent from `r`,
the part after the last `x` is determined. -/
theorem append_cons_cancel_of_not_mem {x : Char} :
    ∀ (l1 l2 r1 r2 : List Char), x ∉ r1 → x ∉ r2 →
      l1 ++ x :: r1 = l2 ++ x :: r2 → r1 = r2 := by
  intro l1
  induction l1 with
  | nil =>
    intro l2 r1 r2 h1 h2 heq
    cases l2 with
    | nil => simpa using heq
    | cons c l2' =>
      simp only [List.nil_append, List.cons_append, List.cons.injEq] at heq
      obtain ⟨hc, htl⟩ := heq
      exfalso
      apply h1
      rw [htl]
      simp
  | cons c l1' ih =>
    intro l2 r1 r2 h1 h2 heq
    cases l2 with
    | nil =>
      simp only [List.cons_append, List.nil_append, List.cons.injEq] at heq
      obtain ⟨hc, htl⟩ := heq
      exfalso
      apply h2
      rw [← htl]
      simp
    | cons d l2' =>
      simp only [List.cons_append, List.cons.injEq] at heq
      exact ih l2' r1 r2 h1 h2 heq.2

/-- Two version tags rendered by `makeVersion` with distinct counters are
distinct strings, whatever the timestamps render to. -/
theorem makeVersion_injective_counter (iso : Nat → String) (b1 b2 : BoardRow)
    (h : makeVersion iso b1 = makeVersion iso b2) : b1.version = b2.version := by
  unfold makeVersion at h
  have hdata : (iso b1.updatedAt).data ++ ':' :: (Nat.repr b1.version).data
      = (iso b2.updatedAt).data ++ ':' :: (Nat.repr b2.version).data := by
    have := congrArg String.data h
    simpa [String.data_append] using this
  have := append_cons_cancel_of_not_mem _ _ _ _
    (repr_ne_colon b1.version) (repr_ne_colon b2.version) hdata
  exact repr_data_injective this

/-! ## Store theorems: conflict rejection and version monotonicity -/

/-- A successful replace bumps the counter by one, stamps `now`, and returns
the tag of the updated row. -/
theorem putBoard_ok_board (iso : Nat → String) (now : Nat) (body : PutBody)
    (s : Store) (b : BoardRow) (hb : s.board = some b)
    (hok : resIsOk (putBoard iso now body s).1 = true) :
    ∃ u : BoardRow, (putBoard iso now body s).2.board = some u ∧
      u.version = b.version + 1 ∧ u.updatedAt = now ∧
      resCounter (putBoard iso now body s).1 = some u.version ∧
      resTag (putBoard iso now body s).1 = some (makeVersion iso u) := by
  by_cases hc : truthy body.version ∧ body.version ≠ some (makeVersion iso b)
  · exfalso
    simp [putBoard, hb, hc, resIsOk] at hok
  · refine ⟨{ b with
        title := match body.boardTitle with | some t => some t | none => b.title
        version := b.version + 1, updatedAt := now }, ?_, rfl, rfl, ?_, ?_⟩ <;>
      simp [putBoard, hb, hc, resCounter, resTag]

theorem putSeq_length (iso : Nat → String) :
    ∀ (calls : List (PutBody × Nat)) (s : Store),
      (putSeq iso s calls).1.length = calls.length := by
  intro calls
  induction calls with
  | nil => intro s; rfl
  | cons c rest ih =>
    intro s
    cases c with
    | mk body now => simp [putSeq, ih]

/-- Under an all-successful run, the `k`-th response carries counter
`b.version + k + 1` and the tag of a row with that counter. -/
theorem putSeq_ok_spec (iso : Nat → String) :
    ∀ (calls : List (PutBody × Nat)) (s : Store) (b : BoardRow),
      s.board = some b →
      (∀ r ∈ (putSeq iso s calls).1, resIsOk r = true) →
      ∀ k (hk : k < (putSeq iso s calls).1.length),
        resCounter ((putSeq iso s calls).1.get ⟨k, hk⟩) = some (b.version + k + 1) ∧
        ∃ u : BoardRow, u.version = b.version + k + 1 ∧
          resTag ((putSeq iso s calls).1.get ⟨k, hk⟩) = some (makeVersion iso u) := by
  intro calls
  induction calls with
  | nil =>
    intro s b _ _ k hk
    simp [putSeq] at hk
  | cons c rest ih =>
    intro s b hb hall k hk
    cases c with
    | mk body now =>
      have hok : resIsOk (putBoard iso now body s).1 = true := by
        apply hall
        simp [putSeq]
      obtain ⟨u, hu, huv, _, hcnt, htag⟩ := putBoard_ok_board iso now body s b hb hok
      cases k with
      | zero =>
        have hget : (putSeq iso s ((body, now) :: rest)).1.get ⟨0, hk⟩
            = (putBoard iso now body s).1 := by
          simp [putSeq]
        rw [hget]
        refine ⟨?_, u, by omega, htag⟩
        rw [hcnt, huv]
      | succ k' =>
        have hall' : ∀ r ∈ (putSeq iso (putBoard iso now body s).2 rest).1,
            resIsOk r = true := by
          intro r hr
          apply hall
          simp [putSeq, hr]
        have hk' : k' < (putSeq iso (putBoard iso now body s).2 rest).1.length := by
          have := hk
          simpa [putSeq] using this
        have hget : (putSeq iso s ((body, now) :: rest)).1.get ⟨k' + 1, hk⟩
            = (putSeq iso (putBoard iso now body s).2 rest).1.get ⟨k', hk'⟩ := by
          simp [putSeq]
        rw [hget]
        have hrec := ih (putBoard iso now body s).2 u hu hall' k' hk'
        rw [huv] at hrec
        refine ⟨?_, ?_⟩
        · rw [show b.version + (k' + 1) + 1 = b.version + 1 + k' + 1 from by omega]
          exact hrec.1
        · obtain ⟨w, hw1, hw2⟩ := hrec.2
          exact ⟨w, by omega, hw2⟩

/-- C2: for every sequence of successful Replace calls on the same board,
the returned version tags are strictly increasing and never repeat — each
successful Replace increments the board's integer version counter by exactly
one and refreshes the timestamp, and no two successful replies carry the
same tag string. -/
theorem successful_replaces_monotonic_and_tags_distinct (iso : Nat → String) :
    (∀ (now : Nat) (body : PutBody) (s : Store) (b : BoardRow),
       s.board = some b → resIsOk (putBoard iso now body s).1 = true →
       ∃ u : BoardRow, (putBoard iso now body s).2.board = some u ∧
         u.version = b.version + 1 ∧ u.updatedAt = now) ∧
    (∀ (calls : List (PutBody × Nat)) (s : Store) (b : BoardRow),
       s.board = some b →
       (∀ r ∈ (putSeq iso s calls).1, resIsOk r = true) →
       ∀ i j (hi : i < (putSeq iso s calls).1.length)
           (hj : j < (putSeq iso s calls).1.length), i < j →
         ∃ ci cj,
           resCounter ((putSeq iso s calls).1.get ⟨i, hi⟩) = some ci ∧
           resCounter ((putSeq iso s calls).1.get ⟨j, hj⟩) = some cj ∧
           ci < cj ∧
           resTag ((putSeq iso s calls).1.get ⟨i, hi⟩)
             ≠ resTag ((putSeq iso s calls).1.get ⟨j, hj⟩)) := by
  constructor
  · intro now body s b hb hok
    obtain ⟨u, hu, huv, hut, _, _⟩ := putBoard_ok_board iso now body s b hb hok
    exact ⟨u, hu, huv, hut⟩
  · intro calls s b hb hall i j hi hj hij
    obtain ⟨hci, ui, hui, htagi⟩ := putSeq_ok_spec iso calls s b hb hall i hi
    obtain ⟨hcj, uj, huj, htagj⟩ := putSeq_ok_spec iso calls s b hb hall j hj
    refine ⟨b.version + i + 1, b.version + j + 1, hci, hcj, by omega, ?_⟩
    rw [htagi, htagj]
    intro hEq
    have : makeVersion iso ui = makeVersion iso uj := by
      simpa using hEq
    have := makeVersion_injective_counter iso ui uj this
    omega

/-- Witness for C2: two unconditional replaces on a concrete board both
succeed; the theorem yields strictly increasing counters and distinct tags. -/
theorem successful_replaces_monotonic_witness :
    (witStore.board = some witBoard ∧
     (∀ r ∈ (putSeq isoT witStore [(witBodyNoTag, 3), (witBodyNoTag, 3)]).1,
        resIsOk r = true)) ∧
    (∃ ci cj,
      resCounter ((putSeq isoT witStore [(witBodyNoTag, 3), (witBodyNoTag, 3)]).1.get
        ⟨0, by decide⟩) = some ci ∧
      resCounter ((putSeq isoT witStore [(witBodyNoTag, 3), (witBodyNoTag, 3)]).1.get
        ⟨1, by decide⟩) = some cj ∧
      ci < cj ∧
      resTag ((putSeq isoT witStore [(witBodyNoTag, 3), (witBodyNoTag, 3)]).1.get
        ⟨0, by decide⟩)
        ≠ resTag ((putSeq isoT witStore [(witBodyNoTag, 3), (witBodyNoTag, 3)]).1.get
        ⟨1, by decide⟩)) :=
  ⟨⟨rfl, by decide⟩,
   (successful_replaces_monotonic_and_tags_distinct isoT).2
     [(witBodyNoTag, 3), (witBodyNoTag, 3)] witStore witBoard rfl (by decide)
     0 1 (by decide) (by decide) (by decide)⟩

/-- C1 (amended): a Replace on an existing board whose body carries a
non-null, *non-empty* expected version tag different from the store's
current tag fails with VersionConflict carrying `currentVersion`, and the
store (board row, node rows, edge rows, version counter) is unchanged. -/
theorem put_conflict_rejected (iso : Nat → String) (now : Nat) (body : PutBody)
    (s : Store) (b : BoardRow) (v : String) (hb : s.board = some b)
    (hv : body.version = some v) (hne : v ≠ "")
    (hneq : v ≠ makeVersion iso b) :
    putBoard iso now body s = (.conflict (makeVersion iso b), s) := by
  have hc : truthy body.version ∧ body.version ≠ some (makeVersion iso b) := by
    constructor
    · simp [truthy, hv, hne]
    · simp [hv, hneq]
  simp [putBoard, hb, hc]

/-- Witness for C1 (amended) on a concrete store and stale tag. -/
theorem put_conflict_rejected_witness :
    (witStore.board = some witBoard ∧
     witBodyStale.version = some "2025-01-01T00:00:09.000Z:9" ∧
     "2025-01-01T00:00:09.000Z:9" ≠ "" ∧
     "2025-01-01T00:00:09.000Z:9" ≠ makeVersion isoT witBoard) ∧
    putBoard isoT 7 witBodyStale witStore
      = (.conflict (makeVersion isoT witBoard), witStore) :=
  ⟨⟨rfl, rfl, by decide, by decide⟩,
   put_conflict_rejected isoT 7 witBodyStale witStore witBoard
     "2025-01-01T00:00:09.000Z:9" rfl rfl (by decide) (by decide)⟩

/-- Counterexample to C1 as stated: the body version `""` is non-null and
differs from the store's current tag, yet the write is accepted (JS
truthiness: `if (version && version !== currentVersion)`) and the store is
mutated. -/
theorem put_conflict_claim_counterexample :
    (witBodyEmptyTag.version ≠ none ∧
     witBodyEmptyTag.version ≠ some (makeVersion isoT witBoard)) ∧
    resIsOk (putBoard isoT 5 witBodyEmptyTag witStore).1 = true ∧
    (putBoard isoT 5 witBodyEmptyTag witStore).2 ≠ witStore := by
  refine ⟨⟨?_, ?_⟩, ?_, ?_⟩ <;> decide

/-! ## Sync-client theorems -/

theorem charListLe_refl (l : List Char) : charListLe l l = true := by
  induction l with
  | nil => rfl
  | cons c cs ih => simp [charListLe, ih]

theorem jsOr_self_absorb (a b : Option String) : jsOr a (jsOr a b) = jsOr a b := by
  unfold jsOr
  by_cases h : truthy a <;> simp [h]

/-- C3 (code evaluation): the flush path of `createSaver` never invokes the
`onSuccess` callback — even when the call site passed one
(`cfg.onSuccess = true`) and the server accepted the write — because the
parameter destructuring of `createSaver` drops it. `sendRealtimeUpdate`
(src/unnamed/part_004) is reachable only from that callback, so no
pt:update notification is published or queued on a successful save. -/
theorem flush_never_invokes_onSuccess {α β : Type} (cfg : SaverConfig)
    (st : SaverState α β) (resp : SaveResp α β)
    (rc : Option (Option String)) (t : String) :
    SaverAction.invokeOnSuccess ∉ (flushStep cfg st resp rc t).2 := by
  unfold flushStep
  cases hp : st.pending with
  | none => simp
  | some snapshot =>
    by_cases hb : st.busy
    · simp [hb]
    · cases resp with
      | ok res => simp [hb]
      | err status =>
        by_cases hc : status = 409 ∧ cfg.onConflict = true
        · by_cases hr : st.retryTimer <;> simp [hb, hc, hr]
        · by_cases hr : st.retryTimer <;> simp [hb, hc, hr]

/-- C4 (amended): a flush that fails with VersionConflict (409) awaits the
reconciliation callback before anything else happens to the buffered
snapshot: the conflicted flush's trace is the failed write attempt, then
the reconciliation invocation, then retry scheduling — no second write
within the conflicted flush — and when reconciliation installed a new
truthy version tag, the eventual retry write carries that tag, not the
stale one. -/
theorem conflict_goes_through_reconciliation {α β : Type} (cfg : SaverConfig)
    (hcb : cfg.onConflict = true) (st : SaverState α β) (snapshot : Snap α β)
    (hp : st.pending = some snapshot) (hbusy : st.busy = false)
    (hretry : st.retryTimer = false) (v2 : String) (hv2 : v2 ≠ "")
    (resp2 : SaveResp α β) (rc2 : Option (Option String)) (t1 t2 : String) :
    let payload : Snap α β :=
      { snapshot with version := jsOr st.lastVersion snapshot.version }
    let step1 := flushStep cfg st (.err 409) (some (some v2)) t1
    let step2 := flushStep cfg step1.1 resp2 rc2 t2
    step1.2 = [.write payload, .invokeOnConflict, .scheduleRetry] ∧
    step1.1.pending = some payload ∧
    step1.1.lastVersion = some v2 ∧
    writesOf step2.2 = [{ payload with version := some v2 }] := by
  intro payload step1 step2
  have h1 : step1 = ({ st with
                        lastVersion := some v2
                        pending := some payload
                        retryTimer := true
                        busy := false },
                     [.write payload, .invokeOnConflict, .scheduleRetry]) := by
    show flushStep cfg st (.err 409) (some (some v2)) t1 = _
    simp [flushStep, hp, hbusy, hcb, hretry]
  refine ⟨by rw [h1], by rw [h1], by rw [h1], ?_⟩
  have hver : jsOr (some v2) payload.version = some v2 := by
    simp [jsOr, truthy, hv2]
  show writesOf (flushStep cfg step1.1 resp2 rc2 t2).2 = _
  rw [h1]
  cases resp2 with
  | ok res => simp [flushStep, writesOf, hver]
  | err status =>
    by_cases hc : status = 409 ∧ cfg.onConflict = true
    · simp [flushStep, writesOf, hver, hc]
    · simp [flushStep, writesOf, hver, hc]

/-- Witness for C4 at a concrete saver state and conflict. -/
theorem conflict_goes_through_reconciliation_witness :
    (witCfg.onConflict = true ∧ witSaverPending.pending = some witSchedSnap ∧
     witSaverPending.busy = false ∧ witSaverPending.retryTimer = false ∧
     ("NEWTAG" : String) ≠ "") ∧
    (let payload : Snap Nat Nat :=
       { witSchedSnap with
         version := jsOr witSaverPending.lastVersion witSchedSnap.version }
     let step1 := flushStep witCfg witSaverPending (.err 409) (some (some "NEWTAG")) "t1"
     let step2 := flushStep witCfg step1.1 (SaveResp.ok witSnap) none "t2"
     step1.2 = [.write payload, .invokeOnConflict, .scheduleRetry] ∧
     step1.1.pending = some payload ∧
     step1.1.lastVersion = some "NEWTAG" ∧
     writesOf step2.2 = [{ payload with version := some "NEWTAG" }]) :=
  ⟨⟨rfl, rfl, rfl, rfl, by decide⟩,
   conflict_goes_through_reconciliation witCfg rfl witSaverPending witSchedSnap
     rfl rfl rfl "NEWTAG" (by decide) (SaveResp.ok witSnap) none "t1" "t2"⟩

/-- Counterexample to C4 as stated: when the awaited reconciliation
callback completes without updating the expected version tag (its
`fetchBoard` failed — the `onConflict` of src/unnamed/part_004 swallows
that error), the retry still re-submits the conflicted snapshot with the
unchanged stale tag: a blind retry with the stale expected version tag. -/
theorem conflict_retry_stale_counterexample :
    (flushStep witCfg witSaverPending (SaveResp.err 409) none "t1").2
      = [SaverAction.write witStalePayload, SaverAction.invokeOnConflict,
         SaverAction.scheduleRetry] ∧
    writesOf (flushStep witCfg
        (flushStep witCfg witSaverPending (SaveResp.err 409) none "t1").1
        (SaveResp.err 409) none "t2").2
      = [witStalePayload] := by
  refine ⟨?_, ?_⟩ <;> decide

theorem foldl_schedule {α β : Type} :
    ∀ (snaps : List (Snap α β)) (st : SaverState α β) (h : snaps ≠ []),
      snaps.foldl scheduleStep st
        = { st with
            pending := some { snaps.getLast h with
              version := jsOr st.lastVersion (snaps.getLast h).version }
            timer := true } := by
  intro snaps
  induction snaps with
  | nil => intro st h; exact absurd rfl h
  | cons a rest ih =>
    intro st h
    cases rest with
    | nil => rfl
    | cons b rest' =>
      have hne : b :: rest' ≠ [] := by simp
      rw [List.foldl_cons, ih (scheduleStep st a) hne]
      simp [scheduleStep, List.getLast_cons]

/-- C6: starting from an idle saver, N ≥ 1 `schedule` calls that each land
within the previous one's debounce window (so only the final debounce timer
fires) produce exactly one network write, whose payload is the snapshot of
the last `schedule` call (with the expected version tag filled in from
`lastVersion`); intermediate snapshots are never transmitted or queued —
`schedule` emits no traffic and `pending` holds only the last snapshot. -/
theorem debounce_single_write {α β : Type} (cfg : SaverConfig)
    (lv : Option String) (snaps : List (Snap α β)) (hne : snaps ≠ [])
    (res : Snap α β) (rc : Option (Option String)) (t : String) :
    let st0 : SaverState α β :=
      { timer := false, lastVersion := lv, pending := none
        busy := false, retryTimer := false }
    let st1 := snaps.foldl scheduleStep st0
    let payload : Snap α β :=
      { snaps.getLast hne with version := jsOr lv (snaps.getLast hne).version }
    st1.pending = some payload ∧
    writesOf (flushStep cfg st1 (.ok res) rc t).2 = [payload] := by
  intro st0 st1 payload
  have hfold := foldl_schedule snaps st0 hne
  constructor
  · show st1.pending = some payload
    rw [show st1 = snaps.foldl scheduleStep st0 from rfl, hfold]
  · show writesOf (flushStep cfg st1 (.ok res) rc t).2 = [payload]
    rw [show st1 = snaps.foldl scheduleStep st0 from rfl, hfold]
    simp [flushStep, writesOf, jsOr_self_absorb]

/-- Witness for C6: three edits scheduled back-to-back, then the timer
fires and the server accepts; exactly one write, carrying the last edit. -/
theorem debounce_single_write_witness :
    (([witSchedSnap, witSnap2, witSnap] : List (Snap Nat Nat)) ≠ []) ∧
    (let st0 : SaverState Nat Nat :=
       { timer := false, lastVersion := some "2025-01-01T00:00:00.000Z:0"
         pending := none, busy := false, retryTimer := false }
     let st1 := ([witSchedSnap, witSnap2, witSnap]).foldl scheduleStep st0
     let payload : Snap Nat Nat :=
       { ([witSchedSnap, witSnap2, witSnap]).getLast (by simp) with
         version := jsOr (some "2025-01-01T00:00:00.000Z:0")
           (([witSchedSnap, witSnap2, witSnap]).getLast (by simp)).version }
     st1.pending = some payload ∧
     writesOf (flushStep witCfg st1 (.ok witSnap) none "t").2 = [payload]) :=
  ⟨by simp,
   debounce_single_write witCfg (some "2025-01-01T00:00:00.000Z:0")
     [witSchedSnap, witSnap2, witSnap] (by simp) witSnap none "t"⟩

/-- C5: reconciliation is idempotent — applying a snapshot that carries a
version tag twice via `applyRemoteSnapshot` leaves the same end state
(nodes, edges, known version tag, saver tag, cache entry) as applying it
once: the version comparison is evaluated before any mutation, so the
second application is a no-op. -/
theorem applyRemoteSnapshot_idempotent {α β : Type} (st : ClientState α β)
    (s : Snap α β) (v : String) (hv : s.version = some v) (hne : v ≠ "")
    (t1 t2 : String) :
    applyRemoteSnapshot (applyRemoteSnapshot st (some s) t1) (some s) t2
      = applyRemoteSnapshot st (some s) t1 := by
  by_cases hskip : truthy st.boardVersion ∧ jsStrLe s.version st.boardVersion
  · simp [applyRemoteSnapshot, hskip]
  · have h1 : applyRemoteSnapshot st (some s) t1
        = { st with
            nodes := s.nodes.getD []
            edges := s.edges.getD []
            saverLastVersion := s.version
            boardVersion := s.version
            cache := some ⟨s, t1⟩ } := by
      simp [applyRemoteSnapshot, hskip]
    rw [h1]
    simp [applyRemoteSnapshot, hv, truthy, hne, jsStrLe, charListLe_refl]

/-- Witness for C5 at a concrete client state and snapshot. -/
theorem applyRemoteSnapshot_idempotent_witness :
    (witSnap.version = some "2025-01-01T00:00:03.000Z:1" ∧
     ("2025-01-01T00:00:03.000Z:1" : String) ≠ "") ∧
    applyRemoteSnapshot (applyRemoteSnapshot witClient (some witSnap) "t1")
        (some witSnap) "t2"
      = applyRemoteSnapshot witClient (some witSnap) "t1" :=
  ⟨⟨rfl, by decide⟩,
   applyRemoteSnapshot_idempotent witClient witSnap "2025-01-01T00:00:03.000Z:1"
     rfl (by decide) "t1" "t2"⟩

/-- C8: echo suppression holds on both paths — `registerUpdate` broadcasts
to the project channel excluding the sender's own connection, and
`handleWsPacket` ignores every pt:update whose `sourceId` equals the
receiver's own client id — so a client's local state is never mutated by
its own update notification. -/
theorem echo_suppression {α β : Type} :
    (∀ (hub : Hub) (sender : String) (payload : Option (PacketPayload α β)),
      ∀ d ∈ registerUpdate hub sender payload, d.1 ≠ sender) ∧
    (∀ (projectId clientId : String) (st : ClientState α β)
        (p : Packet α β) (fr : Except Unit (Snap α β)) (t : String),
      p.payload.bind PacketPayload.sourceId = some clientId →
      handleWsPacket projectId clientId st (some p) fr t = st) := by
  constructor
  · intro hub sender payload d hd
    unfold registerUpdate at hd
    cases hb : payload.bind PacketPayload.projectId with
    | none => rw [hb] at hd; simp at hd
    | some pid =>
      rw [hb] at hd
      dsimp only at hd
      by_cases hpe : pid = ""
      · rw [if_pos hpe] at hd; simp at hd
      · rw [if_neg hpe] at hd
        unfold broadcastChannel at hd
        obtain ⟨sub, hsub, hd2⟩ := List.mem_map.mp hd
        have hf := (List.mem_filter.mp hsub).2
        have hne : sub.1 ≠ sender := by
          have := (Bool.and_eq_true _ _).mp hf
          simpa using this.2
        rw [← hd2]
        exact hne
  · intro projectId clientId st p fr t hsrc
    by_cases ht : p.type ≠ "pt:update"
    · simp [handleWsPacket, ht]
    · by_cases hpid : p.payload.bind PacketPayload.projectId ≠ some projectId
      · simp [handleWsPacket, ht, hpid]
      · by_cases hver : truthy (p.payload.bind PacketPayload.version) = true
        · simp [handleWsPacket, ht, hpid, hver, hsrc]
        · simp [handleWsPacket, ht, hpid, hver]

/-- Witness for C8: in a concrete hub, the fanout of `c1`'s update reaches
`c2` but not `c1`; and `c1` receiving its own packet changes nothing. -/
theorem echo_suppression_witness :
    ("c2", witPacket) ∈ registerUpdate witHub "c1" (some witPayload) ∧
    (("c2", witPacket) : String × Packet Nat Nat).1 ≠ "c1" ∧
    witPacket.payload.bind PacketPayload.sourceId = some "c1" ∧
    handleWsPacket "p1" "c1" witClient (some witPacket) (Except.error ()) "t"
      = witClient :=
  ⟨by decide,
   (echo_suppression (α := Nat) (β := Nat)).1 witHub "c1" (some witPayload)
     ("c2", witPacket) (by decide),
   rfl,
   (echo_suppression (α := Nat) (β := Nat)).2 "p1" "c1" witClient witPacket
     (Except.error ()) "t" rfl⟩

/-- C10: frame property of the realtime handler — for every incoming
websocket message that is unparseable, is not a pt:update, names a
different projectId than the board in view, carries no (truthy) version
tag, or carries exactly the locally known version tag, `handleWsPacket`
returns the client state unchanged. -/
theorem handleWsPacket_out_of_scope_no_change {α β : Type}
    (projectId clientId : String) (st : ClientState α β)
    (packet : Option (Packet α β)) (fr : Except Unit (Snap α β)) (t : String)
    (h : packet = none
      ∨ (∃ p, packet = some p ∧ p.type ≠ "pt:update")
      ∨ (∃ p, packet = some p ∧
           p.payload.bind PacketPayload.projectId ≠ some projectId)
      ∨ (∃ p, packet = some p ∧
           truthy (p.payload.bind PacketPayload.version) = false)
      ∨ (∃ p, packet = some p ∧
           truthy (p.payload.bind PacketPayload.version) = true ∧
           st.boardVersion = p.payload.bind PacketPayload.version)) :
    handleWsPacket projectId clientId st packet fr t = st := by
  rcases h with rfl | ⟨p, rfl, hty⟩ | ⟨p, rfl, hpid⟩ | ⟨p, rfl, hver⟩ |
    ⟨p, rfl, hver, hknown⟩
  · rfl
  · simp [handleWsPacket, hty]
  · by_cases ht : p.type ≠ "pt:update"
    · simp [handleWsPacket, ht]
    · simp [handleWsPacket, ht, hpid]
  · by_cases ht : p.type ≠ "pt:update"
    · simp [handleWsPacket, ht]
    · by_cases hpid : p.payload.bind PacketPayload.projectId ≠ some projectId
      · simp [handleWsPacket, ht, hpid]
      · simp [handleWsPacket, ht, hpid, hver]
  · by_cases ht : p.type ≠ "pt:update"
    · simp [handleWsPacket, ht]
    · by_cases hpid : p.payload.bind PacketPayload.projectId ≠ some projectId
      · simp [handleWsPacket, ht, hpid]
      · by_cases hsrc : p.payload.bind PacketPayload.sourceId = some clientId
        · simp [handleWsPacket, ht, hpid, hver, hsrc]
        · have hcond : truthy st.boardVersion ∧
              st.boardVersion = p.payload.bind PacketPayload.version := by
            constructor
            · rw [hknown]; exact hver
            · exact hknown
          simp [handleWsPacket, ht, hpid, hver, hsrc, hcond]

/-- Witness for C10: a packet from another client carrying exactly the
locally known version tag leaves a concrete client state unchanged. -/
theorem handleWsPacket_out_of_scope_witness :
    (truthy (witPacketKnown.payload.bind PacketPayload.version) = true ∧
     witClientKnown.boardVersion
       = witPacketKnown.payload.bind PacketPayload.version) ∧
    handleWsPacket "p1" "cX" witClientKnown (some witPacketKnown)
        (Except.error ()) "t"
      = witClientKnown :=
  ⟨⟨by decide, by decide⟩,
   handleWsPacket_out_of_scope_no_change "p1" "cX" witClientKnown
     (some witPacketKnown) (Except.error ()) "t"
     (Or.inr (Or.inr (Or.inr (Or.inr
       ⟨witPacketKnown, rfl, by decide, by decide⟩))))⟩

/-! ## Sanitizer theorems -/

theorem sanitizeEdge_some_endpoints (edge : InEdge) (i : Nat) (e : OutEdge)
    (h : sanitizeEdge edge i = some e) :
    e.sourceId ≠ "" ∧ e.targetId ≠ "" ∧ e.sourceId ≠ e.targetId := by
  simp only [sanitizeEdge] at h
  split at h
  · exact absurd h (by simp)
  · rename_i hc
    push_neg at hc
    obtain ⟨h1, h2, h3⟩ := hc
    cases h
    exact ⟨h1, h2, h3⟩

theorem keepEdges_mem (nodes : List OutNode) :
    ∀ (l : List (Nat × InEdge)) (e : OutEdge), e ∈ keepEdges nodes l →
      (∃ i edge, sanitizeEdge edge i = some e) ∧
      (nodes.find? (fun n => n.id == e.sourceId)).isSome = true ∧
      (nodes.find? (fun n => n.id == e.targetId)).isSome = true := by
  intro l
  induction l with
  | nil => intro e he; simp [keepEdges] at he
  | cons hd tl ih =>
    intro e he
    obtain ⟨i, edge⟩ := hd
    cases hse : sanitizeEdge edge i with
    | none =>
      simp only [keepEdges, hse] at he
      exact ih e he
    | some e0 =>
      simp only [keepEdges, hse] at he
      by_cases h1 : (nodes.find? (fun n => n.id == e0.sourceId)).isSome = true
      · by_cases h2 : (nodes.find? (fun n => n.id == e0.targetId)).isSome = true
        · simp only [h1, h2, if_true] at he
          rcases List.mem_cons.mp he with rfl | he'
          · exact ⟨⟨i, edge, hse⟩, h1, h2⟩
          · exact ih e he'
        · simp [h1, h2] at he
          exact ih e he
      · simp [h1] at he
        exact ih e he

/-- C7: every edge surviving `sanitizeBoard` has a nonempty source and
target, is not a self-loop, and both endpoints occur among the sanitized
nodes of the same payload; and `sanitizeEdge` drops every submitted edge
with a missing endpoint or equal endpoints, so such an edge is never
stored. -/
theorem sanitizeBoard_referential_integrity
    (stripHtml sanUrl : String → String) (nowIso freshId : String)
    (schemaVer : Nat) (incoming : InBoard) (fallbackId : Option String) :
    (∀ e ∈ (sanitizeBoard stripHtml sanUrl nowIso freshId schemaVer
              incoming fallbackId).edges,
       e.sourceId ≠ "" ∧ e.targetId ≠ "" ∧ e.sourceId ≠ e.targetId ∧
       (∃ n ∈ (sanitizeBoard stripHtml sanUrl nowIso freshId schemaVer
                 incoming fallbackId).nodes, n.id = e.sourceId) ∧
       (∃ n ∈ (sanitizeBoard stripHtml sanUrl nowIso freshId schemaVer
                 incoming fallbackId).nodes, n.id = e.targetId)) ∧
    (∀ (edge : InEdge) (i : Nat),
       edge.sourceId.getD "" = "" ∨ edge.targetId.getD "" = "" ∨
         edge.sourceId.getD "" = edge.targetId.getD "" →
       sanitizeEdge edge i = none) := by
  constructor
  · intro e he
    have hnodes : (sanitizeBoard stripHtml sanUrl nowIso freshId schemaVer
        incoming fallbackId).nodes
        = ((incoming.nodes.getD []).take 5000).mapIdx
            (fun i n => sanitizeNode stripHtml sanUrl n i) := rfl
    have hedges : (sanitizeBoard stripHtml sanUrl nowIso freshId schemaVer
        incoming fallbackId).edges
        = keepEdges (((incoming.nodes.getD []).take 5000).mapIdx
            (fun i n => sanitizeNode stripHtml sanUrl n i))
            ((incoming.edges.getD []).take 20000).enum := rfl
    rw [hedges] at he
    obtain ⟨⟨i, edge, hse⟩, h1, h2⟩ := keepEdges_mem _ _ e he
    obtain ⟨hs, ht, hst⟩ := sanitizeEdge_some_endpoints edge i e hse
    refine ⟨hs, ht, hst, ?_, ?_⟩
    · rw [hnodes]
      obtain ⟨n, hn, hp⟩ := List.find?_isSome.mp h1
      exact ⟨n, hn, by simpa using hp⟩
    · rw [hnodes]
      obtain ⟨n, hn, hp⟩ := List.find?_isSome.mp h2
      exact ⟨n, hn, by simpa using hp⟩
  · intro edge i h
    simp only [sanitizeEdge]
    rw [if_pos h]

/-- Witness for C7: in a concrete submission the good edge survives with
both endpoints among the sanitized nodes, and the self-loop is dropped. -/
theorem sanitizeBoard_referential_integrity_witness :
    (witOutEdge ∈ (sanitizeBoard id id "T" "b-x" 1 witInBoard none).edges ∧
     (witOutEdge.sourceId ≠ "" ∧ witOutEdge.targetId ≠ "" ∧
      witOutEdge.sourceId ≠ witOutEdge.targetId ∧
      (∃ n ∈ (sanitizeBoard id id "T" "b-x" 1 witInBoard none).nodes,
        n.id = witOutEdge.sourceId) ∧
      (∃ n ∈ (sanitizeBoard id id "T" "b-x" 1 witInBoard none).nodes,
        n.id = witOutEdge.targetId))) ∧
    ((witSelfLoopEdge.sourceId.getD "" = "" ∨
      witSelfLoopEdge.targetId.getD "" = "" ∨
      witSelfLoopEdge.sourceId.getD "" = witSelfLoopEdge.targetId.getD "") ∧
     sanitizeEdge witSelfLoopEdge 1 = none) :=
  ⟨⟨by decide,
    (sanitizeBoard_referential_integrity id id "T" "b-x" 1 witInBoard none).1
      witOutEdge (by decide)⟩,
   ⟨by decide,
    (sanitizeBoard_referential_integrity id id "T" "b-x" 1 witInBoard none).2
      witSelfLoopEdge 1 (by decide)⟩⟩

/-! ## Deletion theorems -/

/-- C9 (amended): deleting a nonexistent board returns NotFound (404) to
the caller — the condition is not silently absorbed — while deleting an
existing board owned by the authenticated requester, with confirmation,
succeeds and removes the board together with its node rows, edge rows
(schema `ON DELETE CASCADE`) and its uploads directory. -/
theorem deleteBoard_spec (req : DeleteRequest) (s : ServerStore) (uid : String)
    (hvalid : isValidBoardId (some (jsTrim req.rawId)) = true)
    (huser : req.user = some uid) :
    (s.boards.find? (fun b => b.id == (jsTrim req.rawId)) = none →
       deleteBoard req s = (.notFound, s)) ∧
    (∀ meta, s.boards.find? (fun b => b.id == (jsTrim req.rawId)) = some meta →
       meta.userId = some uid → confirmOk req (jsTrim req.rawId) = true →
       (deleteBoard req s).1 = .okDeleted ∧
       (∀ b ∈ (deleteBoard req s).2.boards, b.id ≠ (jsTrim req.rawId)) ∧
       (∀ r ∈ (deleteBoard req s).2.nodes, r.boardId ≠ (jsTrim req.rawId)) ∧
       (∀ r ∈ (deleteBoard req s).2.edges, r.boardId ≠ (jsTrim req.rawId)) ∧
       (∀ d ∈ (deleteBoard req s).2.uploadDirs, d ≠ (jsTrim req.rawId))) := by
  constructor
  · intro hfind
    simp [deleteBoard, hvalid, huser, hfind]
  · intro meta hfind howner hconf
    have hres : deleteBoard req s
        = (.okDeleted,
           { boards := s.boards.filter (fun b => b.id ≠ (jsTrim req.rawId))
             nodes := s.nodes.filter (fun r => r.boardId ≠ (jsTrim req.rawId))
             edges := s.edges.filter (fun r => r.boardId ≠ (jsTrim req.rawId))
             uploadDirs := s.uploadDirs.filter (fun d => d ≠ (jsTrim req.rawId)) }) := by
      simp [deleteBoard, hvalid, huser, hfind, howner, hconf]
    rw [hres]
    refine ⟨rfl, ?_, ?_, ?_, ?_⟩ <;>
      · intro x hx
        simp only [List.mem_filter, decide_eq_true_eq] at hx
        exact hx.2

/-- Witness for C9 (amended): a concrete owned board is deleted with its
rows and uploads directory. -/
theorem deleteBoard_spec_witness :
    (isValidBoardId (some (jsTrim delReq.rawId)) = true ∧
     delReq.user = some "u1" ∧
     delStore.boards.find? (fun b => b.id == (jsTrim delReq.rawId))
       = some { id := "abc123", userId := some "u1" } ∧
     confirmOk delReq (jsTrim delReq.rawId) = true) ∧
    ((deleteBoard delReq delStore).1 = DeleteResult.okDeleted ∧
     (∀ b ∈ (deleteBoard delReq delStore).2.boards, b.id ≠ (jsTrim delReq.rawId)) ∧
     (∀ r ∈ (deleteBoard delReq delStore).2.nodes, r.boardId ≠ (jsTrim delReq.rawId)) ∧
     (∀ r ∈ (deleteBoard delReq delStore).2.edges, r.boardId ≠ (jsTrim delReq.rawId)) ∧
     (∀ d ∈ (deleteBoard delReq delStore).2.uploadDirs, d ≠ (jsTrim delReq.rawId))) :=
  ⟨⟨by decide, rfl, by decide, by decide⟩,
   (deleteBoard_spec delReq delStore "u1" (by decide) rfl).2
     { id := "abc123", userId := some "u1" } (by decide) rfl (by decide)⟩

/-- Counterexample to C9 as stated: a valid board id, an authenticated and
confirmed request, a store without that board — the handler answers
NotFound (HTTP 404), an error to the caller, and nothing is logged on this
path; the claim's "the caller does not receive an error" fails. -/
theorem delete_missing_board_counterexample :
    isValidBoardId (some (jsTrim delReqMissing.rawId)) = true ∧
    delReqMissing.user.isSome = true ∧
    confirmOk delReqMissing (jsTrim delReqMissing.rawId) = true ∧
    emptyServerStore.boards.find?
      (fun b => b.id == (jsTrim delReqMissing.rawId)) = none ∧
    (deleteBoard delReqMissing emptyServerStore).1 = DeleteResult.notFound := by
  refine ⟨?_, ?_, ?_, ?_, ?_⟩ <;> decide

end PaperTrail
